import Mathlib

/-!
Verification development for the elastic-distance core of this repository,
centred on the derivative dynamic time warping (DDTW) variant implemented in
src/sktime/distances/_ddtw.py.

Embedding conventions:
a 2-D timeseries (time axis x channel axis) is a list of rows, each row the
channel vector at one time point, with entries in the rationals standing for
the floating point values of the source.  Numpy slicing is embedded with
List.drop and List.dropLast, and numpy elementwise arithmetic with
List.zipWith and List.map, which agree with numpy on all inputs that numpy
accepts (equal shapes) and are total elsewhere.
-/

/-- A 2-D timeseries: one list entry per time point, each a channel vector. -/
abbrev TS : Type := List (List ℚ)

/-- A pointwise distance between two channel vectors. -/
abbrev PD : Type := List ℚ → List ℚ → ℚ

/-- A bounding mask: cell value true means the cost value 0 (cell in bound),
false means infinity (cell out of bound), matching the convention documented
for the bounding matrix in src/sktime/distances/_ddtw.py lines 108-112. -/
abbrev Mask : Type := List (List Bool)

/-- Scalar multiplication of a 2-D array, as in numpy `c * q`. -/
def smul_rows (c : ℚ) (q : TS) : TS :=
  q.map (fun r => r.map (fun v => c * v))

/-- Elementwise addition of two 2-D arrays, as in numpy `p + q`. -/
def add_rows (p q : TS) : TS :=
  List.zipWith (fun r s => List.zipWith (fun a b => a + b) r s) p q

/-- Elementwise subtraction of two 2-D arrays, as in numpy `p - q`. -/
def sub_rows (p q : TS) : TS :=
  List.zipWith (fun r s => List.zipWith (fun a b => a - b) r s) p q

/-- Embedding of `_average_of_slope` from src/sktime/distances/_ddtw.py
lines 19-47, whose body is the numpy expression
`0.25 * q[2:] + 0.5 * q[1:-1] - 0.75 * q[:-2]`.
Note `q[2:]` is `q.drop 2`, `q[1:-1]` is `(q.drop 1).dropLast` and
`q[:-2]` is `q.dropLast.dropLast`. -/
def _average_of_slope (q : TS) : TS :=
  sub_rows
    (add_rows (smul_rows (1/4) (q.drop 2)) (smul_rows (1/2) ((q.drop 1).dropLast)))
    (smul_rows (3/4) (q.dropLast.dropLast))

/-- The channel vector combination that, by claim C2, gives each output point
of the derivative preprocessor: for rows u2 = q[i+2], u1 = q[i+1], u0 = q[i]
this is the row 0.25*u2 + 0.5*u1 - 0.75*u0. -/
def row_combination (u2 u1 u0 : List ℚ) : List ℚ :=
  List.zipWith (fun a b => a - b)
    (List.zipWith (fun a b => a + b) (u2.map (fun v => 1/4 * v)) (u1.map (fun v => 1/2 * v)))
    (u0.map (fun v => 3/4 * v))

/-- Minimum of two extended costs, where none stands for plus infinity. -/
def op_min : Option ℚ → Option ℚ → Option ℚ
  | none, b => b
  | some a, none => some a
  | some a, some b => some (min a b)

/-- Minimum of the three DP predecessors (diagonal, up, left). -/
def min3 (a b c : Option ℚ) : Option ℚ := op_min (op_min a b) c

/-- One sweep along a DP row.  Arguments: the remaining points of the second
series, the remaining mask cells of the current mask row, the previous DP row
starting at the diagonal predecessor, and the cell just written to the left in
the current row.  Produces the current row from column 1 on. -/
def dtw_next_row_go (d : PD) (xi : List ℚ) :
    List (List ℚ) → List Bool → List (Option ℚ) → Option ℚ → List (Option ℚ)
  | yj :: ys, a :: ms, pdiag :: prest, left =>
      let cell : Option ℚ :=
        if a then (min3 pdiag (prest.headD none) left).map (fun c => c + d xi yj)
        else none
      cell :: dtw_next_row_go d xi ys ms prest cell
  | _, _, _, _ => []

/-- All DP rows after row 0: folds the points of the first series together with
the corresponding mask rows over the evolving DP row. -/
def dtw_rows (d : PD) (y : TS) : TS → Mask → List (Option ℚ) → List (Option ℚ)
  | [], _, row => row
  | _ :: _, [], row => row
  | xi :: xs, mrow :: mrest, row =>
      dtw_rows d y xs mrest (none :: dtw_next_row_go d xi y mrow row none)

/-- Modelled from the spec: `_dtw_numba_distance` (DPRecurrence, spec section
4.4), whose implementation in sktime/distances/_dtw.py is not under src.
Classic DTW over a (lenX+1) x (lenY+1) table: row and column 0 hold infinity
except cell (0,0) = 0; cell (i,j) is infinity when mask cell (i-1,j-1) is out
of bound, and otherwise the pointwise distance of x[i-1] and y[j-1] plus the
minimum of the three predecessors.  The result is the bottom-right cell, with
none standing for an infinite accumulated cost.  Mask cells are read
positionally per cell, as array indexing does in the source, so the
recurrence itself is total; the dimension guard of the spec section 4.4
contract is modelled separately by dp_recurrence_compute below. -/
def _dtw_numba_distance (x y : TS) (d : PD) (mask : Mask) : Option ℚ :=
  (dtw_rows d y x mask (some 0 :: List.replicate y.length none)).getLastD none

/-- Modelled from the spec: the failure mode of the DPRecurrence contract of
spec section 4.4, which fails with ShapeMismatchError if the mask dimensions
disagree with the series lengths. -/
inductive DPError : Type where
  | shapeMismatchError : DPError

/-- Whether a mask has exactly the dimensions of the series pair: one mask
row per point of the first series, each row as wide as the second series is
long. -/
def mask_shape_agrees (x y : TS) (mask : Mask) : Bool :=
  decide (mask.length = x.length) && mask.all (fun row => decide (row.length = y.length))

/-- Modelled from the spec: the full compute contract of DPRecurrence, spec
section 4.4, including its guard: it fails with ShapeMismatchError if the
mask dimensions disagree with the series lengths, and otherwise returns the
value of the recurrence (none standing for an infinite accumulated cost). -/
def dp_recurrence_compute (x y : TS) (d : PD) (mask : Mask) :
    Except DPError (Option ℚ) :=
  if mask_shape_agrees x y mask then Except.ok (_dtw_numba_distance x y d mask)
  else Except.error DPError.shapeMismatchError

/-- Embedding of the LowerBounding enum of sktime/distances/lower_bounding.py
as used by src/sktime/distances/_ddtw.py lines 57 and 73-82. -/
inductive LowerBounding : Type where
  | NO_BOUNDING : LowerBounding
  | SAKOE_CHIBA : LowerBounding
  | ITAKURA_PARALLELOGRAM : LowerBounding

/-- Default value of the lower_bounding parameter in the signature of
`_DdtwDistance._distance_factory`, src/sktime/distances/_ddtw.py line 57. -/
def ddtw_default_lower_bounding : LowerBounding := LowerBounding.NO_BOUNDING

/-- Modelled from the spec: BoundingMaskBuilder (spec section 4.1), whose
implementation in sktime/distances/lower_bounding.py is not under src.
NoBounding allows every cell of the lenX x lenY grid; SakoeChiba allows cell
(i,j) iff the distance of j from the scaled diagonal i * lenY / lenX is at
most the window radius; ItakuraParallelogram intersects the two diagonal bands
of slopes maxSlope and its reciprocal, with the two corners force-included. -/
def create_bounding_matrix (lb : LowerBounding) (lenX lenY : ℕ) (window : ℕ)
    (itakura_max_slope : ℚ) : Mask :=
  match lb with
  | LowerBounding.NO_BOUNDING => List.replicate lenX (List.replicate lenY true)
  | LowerBounding.SAKOE_CHIBA =>
      (List.range lenX).map (fun i => (List.range lenY).map (fun j =>
        decide (|(i : ℚ) * lenY / lenX - (j : ℚ)| ≤ (window : ℚ))))
  | LowerBounding.ITAKURA_PARALLELOGRAM =>
      (List.range lenX).map (fun i => (List.range lenY).map (fun j =>
        (decide (i = 0) && decide (j = 0)) ||
        (decide (i + 1 = lenX) && decide (j + 1 = lenY)) ||
        (decide ((j : ℚ) ≤ itakura_max_slope * (i : ℚ)) &&
         decide ((i : ℚ) ≤ itakura_max_slope * (j : ℚ)) &&
         decide ((lenY : ℚ) - 1 - (j : ℚ) ≤ itakura_max_slope * ((lenX : ℚ) - 1 - (i : ℚ))) &&
         decide ((lenX : ℚ) - 1 - (i : ℚ) ≤ itakura_max_slope * ((lenY : ℚ) - 1 - (j : ℚ))))))

/-- Modelled from the spec: `resolve_bounding_matrix` of
sktime/distances/lower_bounding.py, which is not under src, following the
resolution order of spec section 4.2: an explicit bounding matrix, when
supplied, is used as the mask and every other bounding parameter is ignored;
otherwise the mask is built from the strategy and its parameters over the raw
series lengths. -/
def resolve_bounding_matrix (x y : TS) (lower_bounding : LowerBounding)
    (window : ℕ) (itakura_max_slope : ℚ) (bounding_matrix : Option Mask) : Mask :=
  match bounding_matrix with
  | some m => m
  | none => create_bounding_matrix lower_bounding x.length y.length window itakura_max_slope

/-- A derivative preprocessor as the factory receives it: the underlying
series-to-series function together with its name and whether it is a
no_python (numba njit) compiled callable, the runtime attribute that
`is_no_python_compiled_callable` inspects. -/
structure DerivativeCallable : Type where
  fn : TS → TS
  name : String
  noPythonCompiled : Bool

/-- Modelled from the spec: `is_no_python_compiled_callable` of
sktime/distances/_numba_utils.py, which is not under src: the contract check
that a supplied preprocessor is a no_python compiled callable. -/
def is_no_python_compiled_callable (f : DerivativeCallable) : Bool :=
  f.noPythonCompiled

/-- Modelled from the spec: `distance_factory` of sktime/distances/_distance.py,
which is not under src, restricted per spec section 4.2 item (2) to a
pointwise distance already given as a ready specialized function, which is
used directly (identifier lookup lives in the external registry). -/
def distance_factory (x y : TS) (metric : PD) : PD :=
  metric

/-- The default derivative preprocessor of the factory signature,
src/sktime/distances/_ddtw.py line 62: `_average_of_slope`, which carries the
numba njit decoration (line 19), so its compiled-callable flag is true. -/
def average_of_slope_callable : DerivativeCallable :=
  { fn := _average_of_slope, name := "_average_of_slope", noPythonCompiled := true }

/-- Modelled from the spec: the default pointwise distance
`_SquaredDistance` of sktime/distances/_squared.py, which is not under src:
the squared difference summed over channels. -/
def squared_dist : PD :=
  fun a b => (List.zipWith (fun u v => (u - v) * (u - v)) a b).sum

/-- Failure modes of the factory build.  In Python, a raise statement whose
operand is a plain string object fails with
TypeError: exceptions must derive from BaseException; the first constructor
records that outcome together with the string the code tried to raise.  The
second constructor is the failure documented in the docstring of
`_DdtwDistance._distance_factory` (Raises: ValueError ... if the compute
derivative callable is not no_python compiled), which the body never
constructs. -/
inductive FactoryError : Type where
  | typeErrorRaisedNonBaseException : String → FactoryError
  | valueError : String → FactoryError

/-- Embedding of `_DdtwDistance._distance_factory`,
src/sktime/distances/_ddtw.py lines 53-161: resolve the bounding matrix from
the raw series x and y (line 135), check that the supplied derivative callable
is no_python compiled and otherwise execute a raise statement on a bare
f-string (lines 139-144, whose pieces concatenate with no space between
"name" and "of"), resolve the custom distance (line 150), and return the
closure `numba_ddtw_distance` (lines 152-161), which applies the derivative to
both inputs and hands the results to the DP core together with the
pre-resolved distance and bounding matrix. -/
def ddtw_distance_factory (x y : TS) (lower_bounding : LowerBounding)
    (window : ℕ) (itakura_max_slope : ℚ) (custom_distance : PD)
    (bounding_matrix : Option Mask) (compute_derivative : DerivativeCallable) :
    Except FactoryError (TS → TS → Option ℚ) :=
  let _bounding_matrix : Mask :=
    resolve_bounding_matrix x y lower_bounding window itakura_max_slope bounding_matrix
  if !(is_no_python_compiled_callable compute_derivative) then
    Except.error (FactoryError.typeErrorRaisedNonBaseException
      ("The derivative callable must be no_python compiled. The nameof the callable that must be compiled is "
        ++ compute_derivative.name))
  else
    let _custom_distance : PD := distance_factory x y custom_distance
    Except.ok (fun _x _y =>
      _dtw_numba_distance (compute_derivative.fn _x) (compute_derivative.fn _y)
        _custom_distance _bounding_matrix)

/-- The naive composition, following the words of spec section 4.2 item (3)
and claim C5: on each call, apply the preprocessor to both inputs and invoke
the DP recurrence with the pre-resolved pointwise distance and the
pre-resolved bounding mask. -/
def spec_naive_composition (preprocessor : TS → TS) (pointwise : PD)
    (mask : Mask) (a b : TS) : Option ℚ :=
  _dtw_numba_distance (preprocessor a) (preprocessor b) pointwise mask

/-- State-passing embedding of the closure environment of
`numba_ddtw_distance` (src/sktime/distances/_ddtw.py lines 152-161): the three
values the returned function closes over, namely the derivative callable, the
resolved custom distance and the resolved bounding matrix. -/
structure ClosureEnv : Type where
  compute_derivative : TS → TS
  custom_distance : PD
  bounding_matrix : Mask

/-- One invocation of the specialized closure, with the closure environment
threaded explicitly as state: the body of `numba_ddtw_distance` rebinds only
its two local parameters and writes to no closed-over cell, so the
environment component of the result is the incoming environment. -/
def invoke_specialized (env : ClosureEnv) (p : TS × TS) : ClosureEnv × Option ℚ :=
  (env,
    _dtw_numba_distance (env.compute_derivative p.1) (env.compute_derivative p.2)
      env.custom_distance env.bounding_matrix)

/-- A sequence of invocations of one specialized closure, each running in the
environment state left by the previous one. -/
def run_specialized : ClosureEnv → List (TS × TS) → ClosureEnv × List (Option ℚ)
  | env, [] => (env, [])
  | env, p :: ps =>
      let r := invoke_specialized env p
      let rest := run_specialized r.1 ps
      (rest.1, r.2 :: rest.2)

/-- A concrete univariate series of length 4 used in concrete evaluations. -/
def exampleX : TS := [[0], [1], [2], [3]]

/-- A second concrete univariate series of length 4. -/
def exampleY : TS := [[1], [3], [6], [10]]

/-- A concrete univariate series of length 2, shorter than the minimum the
spec requires for derivative preprocessing. -/
def shortSeries : TS := [[1], [2]]

/-- A derivative callable standing for a plain (not numba-compiled) Python
function handed to the factory, such as a lambda: its compiled-callable flag
is false. -/
def plain_python_derivative : DerivativeCallable :=
  { fn := fun q => q, name := "<lambda>", noPythonCompiled := false }

theorem getElem?_zipWith_eq {α β γ : Type} (f : α → β → γ) (as : List α)
    (bs : List β) (i : ℕ) :
    (List.zipWith f as bs)[i]? = (as[i]?).bind fun a => (bs[i]?).map fun b => f a b := by
  rw [List.getElem?_zipWith]
  cases as[i]? <;> cases bs[i]? <;> rfl

theorem length_average_of_slope (q : TS) :
    (_average_of_slope q).length = q.length - 2 := by
  unfold _average_of_slope sub_rows add_rows smul_rows
  simp only [List.length_zipWith, List.length_map, List.length_drop,
    List.length_dropLast]
  omega

theorem average_of_slope_getElem? (q : TS) (i : ℕ) (h : 2 + i < q.length) :
    (_average_of_slope q)[i]? = some (row_combination q[2 + i] q[1 + i] q[i]) := by
  have h1 : 1 + i < q.length := by omega
  have h0 : i < q.length := by omega
  unfold _average_of_slope sub_rows add_rows smul_rows row_combination
  rw [getElem?_zipWith_eq, getElem?_zipWith_eq, List.getElem?_map,
    List.getElem?_map, List.getElem?_map, List.getElem?_drop,
    List.dropLast_eq_take, List.dropLast_eq_take, List.dropLast_eq_take,
    List.getElem?_take, List.getElem?_take]
  simp only [List.length_take, List.length_drop]
  rw [if_pos (by omega), if_pos (by omega), List.getElem?_drop,
    List.getElem?_take, if_pos (by omega)]
  rw [List.getElem?_eq_getElem h, List.getElem?_eq_getElem h1,
    List.getElem?_eq_getElem h0]
  rfl

theorem average_of_slope_getElem?_none (q : TS) (i : ℕ) (h : q.length ≤ 2 + i) :
    (_average_of_slope q)[i]? = none := by
  apply List.getElem?_eq_none
  rw [length_average_of_slope]
  omega

theorem row_combination_getElem? (u2 u1 u0 : List ℚ) (j : ℕ) :
    (row_combination u2 u1 u0)[j]? =
      (u2[j]?).bind fun a => (u1[j]?).bind fun b => (u0[j]?).map fun c =>
        (1/4 * a + 1/2 * b) - 3/4 * c := by
  unfold row_combination
  rw [getElem?_zipWith_eq, getElem?_zipWith_eq, List.getElem?_map,
    List.getElem?_map, List.getElem?_map]
  cases u2[j]? <;> cases u1[j]? <;> cases u0[j]? <;> rfl

theorem length_row_combination (u2 u1 u0 : List ℚ) :
    (row_combination u2 u1 u0).length = min (min u2.length u1.length) u0.length := by
  unfold row_combination
  simp [List.length_zipWith]

theorem row_combination_self (r : List ℚ) :
    row_combination r r r = List.replicate r.length 0 := by
  unfold row_combination
  induction r with
  | nil => rfl
  | cons v r ih =>
      simp only [List.map_cons, List.zipWith_cons_cons, List.length_cons,
        List.replicate_succ]
      exact List.cons_eq_cons.mpr ⟨by ring, ih⟩

/-- C2: for every 2-D input series q of length n at least 3 and uniform
channel width m, the derivative preprocessor returns a series of length n - 2
whose point i, channel j, equals
0.25 * q[i+2][j] + 0.5 * q[i+1][j] - 0.75 * q[i][j], for every i below n - 2
and j below m. -/
theorem average_of_slope_point_formula (q : TS) (m : ℕ)
    (hw : ∀ r ∈ q, r.length = m) (h3 : 3 ≤ q.length) :
    (_average_of_slope q).length = q.length - 2 ∧
    ∀ i j, i < q.length - 2 → j < m →
      ((_average_of_slope q).getD i []).getD j 0 =
        1/4 * ((q.getD (i + 2) []).getD j 0) + 1/2 * ((q.getD (i + 1) []).getD j 0)
          - 3/4 * ((q.getD i []).getD j 0) := by
  refine ⟨length_average_of_slope q, fun i j hi hj => ?_⟩
  have h2 : 2 + i < q.length := by omega
  have h1 : 1 + i < q.length := by omega
  have h0 : i < q.length := by omega
  have e2 : q.getD (i + 2) [] = q[2 + i] := by
    rw [List.getD_eq_getElem?_getD, Nat.add_comm i 2, List.getElem?_eq_getElem h2]
    rfl
  have e1 : q.getD (i + 1) [] = q[1 + i] := by
    rw [List.getD_eq_getElem?_getD, Nat.add_comm i 1, List.getElem?_eq_getElem h1]
    rfl
  have e0 : q.getD i [] = q[i] := by
    rw [List.getD_eq_getElem?_getD, List.getElem?_eq_getElem h0]
    rfl
  rw [e2, e1, e0, List.getD_eq_getElem?_getD (_average_of_slope q) i [],
    average_of_slope_getElem? q i h2, Option.getD_some,
    List.getD_eq_getElem?_getD (row_combination q[2 + i] q[1 + i] q[i]) j 0,
    row_combination_getElem?]
  have j2 : j < (q[2 + i]).length := by rw [hw _ (List.getElem_mem h2)]; exact hj
  have j1 : j < (q[1 + i]).length := by rw [hw _ (List.getElem_mem h1)]; exact hj
  have j0 : j < (q[i]).length := by rw [hw _ (List.getElem_mem h0)]; exact hj
  rw [List.getElem?_eq_getElem j2, List.getElem?_eq_getElem j1,
    List.getElem?_eq_getElem j0,
    List.getD_eq_getElem?_getD (q[2 + i]) j 0,
    List.getD_eq_getElem?_getD (q[1 + i]) j 0,
    List.getD_eq_getElem?_getD (q[i]) j 0,
    List.getElem?_eq_getElem j2, List.getElem?_eq_getElem j1,
    List.getElem?_eq_getElem j0]
  simp only [Option.some_bind, Option.map_some', Option.getD_some]

/-- Witness for C2 at the concrete series exampleX of length 4 and width 1. -/
theorem average_of_slope_point_formula_witness :
    (∀ r ∈ exampleX, r.length = 1) ∧ 3 ≤ exampleX.length ∧
    ((_average_of_slope exampleX).length = exampleX.length - 2 ∧
      ∀ i j, i < exampleX.length - 2 → j < 1 →
        ((_average_of_slope exampleX).getD i []).getD j 0 =
          1/4 * ((exampleX.getD (i + 2) []).getD j 0)
            + 1/2 * ((exampleX.getD (i + 1) []).getD j 0)
            - 3/4 * ((exampleX.getD i []).getD j 0)) :=
  ⟨by decide, by decide,
    average_of_slope_point_formula exampleX 1 (by decide) (by decide)⟩

/-- C9: for every 2-D input array of shape (n, m), the derivative
preprocessor `_average_of_slope` returns an array of shape (n - 2 truncated
at 0, m), preserving the channel width; in particular for n below 3 it
returns the empty array of zero rows without any failure, the function being
total.  Note Nat subtraction makes q.length - 2 the truncated difference. -/
theorem average_of_slope_shape (q : TS) (m : ℕ) (hw : ∀ r ∈ q, r.length = m) :
    (_average_of_slope q).length = q.length - 2 ∧
    ∀ r ∈ _average_of_slope q, r.length = m := by
  refine ⟨length_average_of_slope q, fun r hr => ?_⟩
  obtain ⟨i, hsome⟩ := List.mem_iff_getElem?.mp hr
  have hlt : 2 + i < q.length := by
    by_contra hge
    rw [average_of_slope_getElem?_none q i (by omega)] at hsome
    exact Option.noConfusion hsome
  rw [average_of_slope_getElem? q i hlt] at hsome
  have hr2 : r = row_combination q[2 + i] q[1 + i] q[i] := (Option.some.inj hsome).symm
  rw [hr2, length_row_combination, hw _ (List.getElem_mem hlt),
    hw _ (List.getElem_mem (show 1 + i < q.length by omega)),
    hw _ (List.getElem_mem (show i < q.length by omega))]
  omega

/-- Witness for C9 at a concrete jagged-free array of shape (2, 2): the
result has shape (0, 2). -/
theorem average_of_slope_shape_witness :
    (∀ r ∈ ([[5, 6], [7, 8]] : TS), r.length = 2) ∧
    ((_average_of_slope [[5, 6], [7, 8]]).length = ([[5, 6], [7, 8]] : TS).length - 2 ∧
      ∀ r ∈ _average_of_slope [[5, 6], [7, 8]], r.length = 2) :=
  ⟨by decide, average_of_slope_shape [[5, 6], [7, 8]] 2 (by decide)⟩

/-- Counterexample to C3 as stated: at the concrete length-2 input
shortSeries, the derivative preprocessor returns normally, producing the
empty series as its value instead of failing: the body of
`_average_of_slope` (src/sktime/distances/_ddtw.py lines 19-47) is bare
numpy slicing with no length check and no raise path, so no
InsufficientLengthError can occur in derivative preprocessing. -/
theorem average_of_slope_short_input_returns_value :
    _average_of_slope shortSeries = ([] : TS) :=
  rfl

/-- C3 amended: for every input series of length n below 3, the derivative
preprocessing returns the empty series (of length 0) without failing; the
source contains no length check and no InsufficientLengthError. -/
theorem average_of_slope_short_input_empty (q : TS) (h : q.length < 3) :
    _average_of_slope q = [] := by
  rw [← List.length_eq_zero, length_average_of_slope]
  omega

/-- Witness for the amended C3 at the concrete length-2 series shortSeries. -/
theorem average_of_slope_short_input_empty_witness :
    shortSeries.length < 3 ∧ _average_of_slope shortSeries = [] :=
  ⟨by decide, average_of_slope_short_input_empty shortSeries (by decide)⟩

/-- C6: for every constant 2-D series of length n + 3 (so any length at least
3), with every time point the same vector r, the derivative preprocessor
returns the all-zero series of length n + 1 = (n + 3) - 2 and width
r.length. -/
theorem average_of_slope_constant_series_zero (n : ℕ) (r : List ℚ) :
    _average_of_slope (List.replicate (n + 3) r) =
      List.replicate (n + 1) (List.replicate r.length 0) := by
  have key : ∀ i, i < n + 1 →
      (_average_of_slope (List.replicate (n + 3) r))[i]? =
        some (List.replicate r.length 0) := by
    intro i hi
    have hlen : 2 + i < (List.replicate (n + 3) r).length := by
      rw [List.length_replicate]; omega
    rw [average_of_slope_getElem? _ i hlen]
    have er : ∀ k, (hk : k < (List.replicate (n + 3) r).length) →
        (List.replicate (n + 3) r)[k] = r := by
      intro k hk
      exact List.getElem_replicate r hk
    rw [er _ hlen, er _ (by rw [List.length_replicate]; omega),
      er _ (by rw [List.length_replicate]; omega), row_combination_self]
  apply List.ext_getElem?
  intro k
  by_cases hk : k < n + 1
  · rw [key k hk, List.getElem?_replicate, if_pos hk]
  · rw [List.getElem?_eq_none (by rw [length_average_of_slope, List.length_replicate]; omega),
      List.getElem?_eq_none (by rw [List.length_replicate]; omega)]

/-- One row of the elementwise linear combination a*u + b*v of two channel
vectors, as numpy computes it. -/
def row_lin (a : ℚ) (u : List ℚ) (b : ℚ) (v : List ℚ) : List ℚ :=
  List.zipWith (fun p q => p + q) (u.map (fun w => a * w)) (v.map (fun w => b * w))

/-- The elementwise linear combination a*x + b*y of two 2-D arrays, as numpy
computes `a * x + b * y`. -/
def lin_comb (a : ℚ) (x : TS) (b : ℚ) (y : TS) : TS :=
  add_rows (smul_rows a x) (smul_rows b y)

theorem length_lin_comb (a b : ℚ) (x y : TS) :
    (lin_comb a x b y).length = min x.length y.length := by
  unfold lin_comb add_rows smul_rows
  simp [List.length_zipWith]

theorem lin_comb_getElem? (a b : ℚ) (x y : TS) (k : ℕ) :
    (lin_comb a x b y)[k]? =
      (x[k]?).bind fun u => (y[k]?).map fun v => row_lin a u b v := by
  unfold lin_comb add_rows smul_rows row_lin
  rw [getElem?_zipWith_eq, List.getElem?_map, List.getElem?_map]
  cases x[k]? <;> cases y[k]? <;> rfl

theorem lin_comb_getElem (a b : ℚ) (x y : TS) (k : ℕ)
    (hx : k < x.length) (hy : k < y.length)
    (hk : k < (lin_comb a x b y).length) :
    (lin_comb a x b y)[k] = row_lin a x[k] b y[k] := by
  have h := lin_comb_getElem? a b x y k
  rw [List.getElem?_eq_getElem hx, List.getElem?_eq_getElem hy,
    List.getElem?_eq_getElem hk] at h
  simpa using h

theorem row_combination_lin (a b : ℚ) :
    ∀ u2 v2 u1 v1 u0 v0 : List ℚ,
    row_combination (row_lin a u2 b v2) (row_lin a u1 b v1) (row_lin a u0 b v0) =
      row_lin a (row_combination u2 u1 u0) b (row_combination v2 v1 v0) := by
  intro u2
  induction u2 with
  | nil => intro v2 u1 v1 u0 v0; simp [row_combination, row_lin]
  | cons p2 u2 ih =>
      intro v2 u1 v1 u0 v0
      cases v2 with
      | nil => simp [row_combination, row_lin]
      | cons q2 v2 =>
          cases u1 with
          | nil => simp [row_combination, row_lin]
          | cons p1 u1 =>
              cases v1 with
              | nil => simp [row_combination, row_lin]
              | cons q1 v1 =>
                  cases u0 with
                  | nil => simp [row_combination, row_lin]
                  | cons p0 u0 =>
                      cases v0 with
                      | nil => simp [row_combination, row_lin]
                      | cons q0 v0 =>
                          simp only [row_combination, row_lin, List.map_cons,
                            List.zipWith_cons_cons]
                          refine List.cons_eq_cons.mpr ⟨by ring, ?_⟩
                          have h := ih v2 u1 v1 u0 v0
                          simpa only [row_combination, row_lin] using h

theorem average_of_slope_lin_comb (a b : ℚ) (x y : TS) :
    _average_of_slope (lin_comb a x b y) =
      lin_comb a (_average_of_slope x) b (_average_of_slope y) := by
  apply List.ext_getElem?
  intro i
  by_cases hi : 2 + i < min x.length y.length
  · have hL : 2 + i < (lin_comb a x b y).length := by rw [length_lin_comb]; omega
    rw [average_of_slope_getElem? _ i hL, lin_comb_getElem?,
      average_of_slope_getElem? x i (by omega), average_of_slope_getElem? y i (by omega)]
    simp only [Option.some_bind, Option.map_some']
    rw [lin_comb_getElem a b x y (2 + i) (by omega) (by omega)
        (by rw [length_lin_comb]; omega),
      lin_comb_getElem a b x y (1 + i) (by omega) (by omega)
        (by rw [length_lin_comb]; omega),
      lin_comb_getElem a b x y i (by omega) (by omega)
        (by rw [length_lin_comb]; omega),
      row_combination_lin]
  · rw [average_of_slope_getElem?_none _ i (by rw [length_lin_comb]; omega),
      List.getElem?_eq_none (by rw [length_lin_comb, length_average_of_slope,
        length_average_of_slope]; omega)]

/-- C10: the derivative preprocessor `_average_of_slope` is linear: for every
pair of same-shape 2-D series x and y (equal lengths, and rows of equal width
pointwise) and every pair of scalars a and b, the derivative of a*x + b*y is
a times the derivative of x plus b times the derivative of y.  The identity
in fact holds for arbitrary x and y under the list embedding, where
elementwise operations truncate to the shorter operand; the same-shape
hypotheses of the claim are therefore not even needed by the proof. -/
theorem average_of_slope_linear (a b : ℚ) (x y : TS)
    (hlen : x.length = y.length)
    (hrows : List.Forall₂ (fun r s => r.length = s.length) x y) :
    _average_of_slope (lin_comb a x b y) =
      lin_comb a (_average_of_slope x) b (_average_of_slope y) :=
  average_of_slope_lin_comb a b x y

/-- Witness for C10 at concrete same-shape series exampleX and exampleY and
scalars 2 and 5. -/
theorem average_of_slope_linear_witness :
    exampleX.length = exampleY.length ∧
    List.Forall₂ (fun r s => r.length = s.length) exampleX exampleY ∧
    _average_of_slope (lin_comb 2 exampleX 5 exampleY) =
      lin_comb 2 (_average_of_slope exampleX) 5 (_average_of_slope exampleY) :=
  ⟨by decide, by decide,
    average_of_slope_linear 2 5 exampleX exampleY (by decide) (by decide)⟩

/-- C1 (refuting, supporting the code-bug verdict): at the concrete length-4
series exampleX and exampleY with the default configuration, the mask the
factory resolves at src/sktime/distances/_ddtw.py line 135 — computed from the
raw series, before any derivative is taken — has dimensions 4 x 4, while the
derivative series that reach the DP core (lines 157-159) have length 2; and
the callable the factory returns indeed closes over exactly that raw-lengths
mask.  The claim requires mask dimensions (2, 2), the post-derivative
lengths, so the code contradicts it. -/
theorem ddtw_factory_mask_uses_raw_lengths :
    (resolve_bounding_matrix exampleX exampleY LowerBounding.NO_BOUNDING 2 2 none).length = 4 ∧
    ((resolve_bounding_matrix exampleX exampleY LowerBounding.NO_BOUNDING 2 2 none).headD
      []).length = 4 ∧
    (_average_of_slope exampleX).length = 2 ∧
    (_average_of_slope exampleY).length = 2 ∧
    ddtw_distance_factory exampleX exampleY LowerBounding.NO_BOUNDING 2 2
        squared_dist none average_of_slope_callable =
      Except.ok (spec_naive_composition _average_of_slope squared_dist
        (resolve_bounding_matrix exampleX exampleY LowerBounding.NO_BOUNDING 2 2 none)) :=
  ⟨rfl, rfl, rfl, rfl, rfl⟩

/-- C4 (refuting the error identity, supporting the code-bug verdict): when
the supplied preprocessor fails the compiled-callable contract check, the
factory build does fail before any series comparison runs, but by executing a
raise statement whose operand is a plain string (src/sktime/distances/_ddtw.py
lines 139-144) — in Python a TypeError, not the ValueError its own docstring
documents nor the UnsupportedPreprocessorError of the claim. -/
theorem ddtw_factory_uncompiled_preprocessor_raises_string :
    ddtw_distance_factory exampleX exampleY LowerBounding.NO_BOUNDING 2 2
        squared_dist none plain_python_derivative =
      Except.error (FactoryError.typeErrorRaisedNonBaseException
        ("The derivative callable must be no_python compiled. The nameof the callable that must be compiled is "
          ++ "<lambda>")) :=
  rfl

/-- C5: for every configuration whose derivative callable passes the
compiled-callable check, the factory-returned specialized DDTW callable is
exactly the naive composition: the function that applies the resolved
derivative preprocessor to each input and invokes the DP recurrence with the
pre-resolved pointwise distance and the pre-resolved bounding mask.  All
resolution (mask and pointwise distance) happens in the factory body; the
returned closure contains no further dispatch. -/
theorem ddtw_factory_is_naive_composition (x y : TS) (lb : LowerBounding)
    (w : ℕ) (s : ℚ) (cd : PD) (bm : Option Mask) (dc : DerivativeCallable)
    (h : dc.noPythonCompiled = true) :
    ddtw_distance_factory x y lb w s cd bm dc =
      Except.ok (spec_naive_composition dc.fn (distance_factory x y cd)
        (resolve_bounding_matrix x y lb w s bm)) := by
  unfold ddtw_distance_factory is_no_python_compiled_callable
  rw [h]
  rfl

/-- Witness for C5 at the default concrete configuration. -/
theorem ddtw_factory_is_naive_composition_witness :
    average_of_slope_callable.noPythonCompiled = true ∧
    ddtw_distance_factory exampleX exampleY LowerBounding.NO_BOUNDING 2 2
        squared_dist none average_of_slope_callable =
      Except.ok (spec_naive_composition average_of_slope_callable.fn
        (distance_factory exampleX exampleY squared_dist)
        (resolve_bounding_matrix exampleX exampleY LowerBounding.NO_BOUNDING 2 2 none)) :=
  ⟨rfl, ddtw_factory_is_naive_composition exampleX exampleY
    LowerBounding.NO_BOUNDING 2 2 squared_dist none average_of_slope_callable rfl⟩

/-- C7: resolution order of the bounding mask: when an explicit bounding
matrix is supplied it is used as the mask, whatever the strategy, window and
max-slope parameters are (the result does not depend on them); otherwise the
mask is built from the provided strategy and parameters; and under the
factory default strategy (NO_BOUNDING, src/sktime/distances/_ddtw.py line 57)
the built mask allows every cell. -/
theorem resolve_bounding_matrix_resolution_order (x y : TS) (lb : LowerBounding)
    (w : ℕ) (s : ℚ) (m : Mask) :
    resolve_bounding_matrix x y lb w s (some m) = m ∧
    resolve_bounding_matrix x y lb w s none =
      create_bounding_matrix lb x.length y.length w s ∧
    resolve_bounding_matrix x y ddtw_default_lower_bounding w s none =
      List.replicate x.length (List.replicate y.length true) :=
  ⟨rfl, rfl, rfl⟩

/-- C8: the specialized DDTW closure is deterministic and free of shared
mutable state, in the explicit state-passing embedding of its closure
environment: a sequence of invocations leaves the environment unchanged, and
every output in the sequence is the pure function of the initial environment
and that invocation's own input pair alone — so two invocations on equal
pairs, at any positions in any call sequence, return equal results. -/
theorem specialized_ddtw_pure_and_stateless (env : ClosureEnv) (ps : List (TS × TS)) :
    (run_specialized env ps).1 = env ∧
    (run_specialized env ps).2 = ps.map (fun p => (invoke_specialized env p).2) := by
  induction ps with
  | nil => exact ⟨rfl, rfl⟩
  | cons p ps ih =>
      exact ⟨ih.1, congrArg (List.cons ((invoke_specialized env p).2)) ih.2⟩

/-- Supporting fact for the spec-modelled DPRecurrence contract: at a
length-2 input under the default configuration, the mask the factory
resolves from the raw series is 2 x 2 while the derivative series are empty,
so the guarded compute contract of spec section 4.4 fails with
ShapeMismatchError instead of returning a value. -/
theorem dp_recurrence_compute_rejects_raw_mask :
    dp_recurrence_compute (_average_of_slope shortSeries)
      (_average_of_slope shortSeries) squared_dist
      (resolve_bounding_matrix shortSeries shortSeries
        LowerBounding.NO_BOUNDING 2 2 none) =
      Except.error DPError.shapeMismatchError :=
  rfl
